import Mathlib

/-!
Shallow embedding of `internal/querycoordv2/checkers/segment_checker.go`
(the `SegmentChecker` of the query coordinator) and proofs about it.

Conventions of the embedding:
* Go `int64` identifiers and versions become `Int`; `uint64` timestamps become `Nat`.
* Go maps built by the checker itself become association lists where a more
  recent write shadows older ones (`lookup` finds the first, most recent, entry).
* The external collaborators (meta store, distribution manager, target manager,
  node manager, balancer) are read-only snapshots; they are modelled as fields
  of `CheckerState`.
* Go code that can dereference a nil pointer is modelled in the `Option` monad:
  a `none` result marks a run that panics.
* `sort.Slice` guarantees only that its output is a permutation of its input
  that is sorted by the comparator (it is not stable).  Order-robust theorems
  are therefore stated over every sorted permutation (`getSealedSegmentDiffWith`),
  while the executable top level uses one admissible outcome (`sortByVersion`,
  an insertion sort).
-/

/-- `datapb.SegmentLevel`. The checker only distinguishes `L0` from the rest. -/
inductive SegmentLevel where
  | Legacy
  | L0
  | L1
  | L2
deriving DecidableEq, Repr

/-- Target-side `datapb.SegmentInfo` (the fields the checker reads).
`startPosTs` is `GetStartPosition().GetTimestamp()`. -/
structure SegmentInfo where
  segmentID : Int
  collectionID : Int
  partitionID : Int
  insertChannel : String
  level : SegmentLevel
  startPosTs : Nat
deriving DecidableEq, Repr

/-- Distribution-side `meta.Segment`: an embedded `SegmentInfo` plus the node
currently reporting the segment and the monotonic placement version. -/
structure Segment where
  info : SegmentInfo
  node : Int
  version : Int
deriving DecidableEq, Repr

def Segment.getID (s : Segment) : Int := s.info.segmentID

def Segment.getCollectionID (s : Segment) : Int := s.info.collectionID

def Segment.getPartitionID (s : Segment) : Int := s.info.partitionID

def Segment.getInsertChannel (s : Segment) : String := s.info.insertChannel

def Segment.getLevel (s : Segment) : SegmentLevel := s.info.level

def Segment.getStartPosTs (s : Segment) : Nat := s.info.startPosTs

/-- Entry of `LeaderView.Segments`: which node actually serves a sealed segment. -/
structure SegmentDist where
  nodeID : Int
deriving DecidableEq, Repr

/-- `meta.LeaderView`: a shard leader's self-reported view. -/
structure LeaderView where
  id : Int
  targetVersion : Int
  growingSegments : List Segment
  segments : List (Int × SegmentDist)
deriving DecidableEq, Repr

/-- Target-side channel entry; `seekPosTs` is `GetSeekPosition().GetTimestamp()`. -/
structure DmChannel where
  seekPosTs : Nat
deriving DecidableEq, Repr

/-- `meta.Replica`: identity plus the set of nodes assigned to the replica. -/
structure Replica where
  id : Int
  collectionID : Int
  nodes : List Int
deriving DecidableEq, Repr

/-- `meta.NilReplica`, used by the collection-released cleanup path. -/
def NilReplica : Replica := { id := -1, collectionID := -1, nodes := [] }

inductive ActionType where
  | Grow
  | Reduce
deriving DecidableEq, Repr

inductive DataScope where
  | Historical
  | Streaming
deriving DecidableEq, Repr

inductive TaskPriority where
  | Low
  | Normal
  | High
deriving DecidableEq, Repr

/-- `task.NewSegmentActionWithScope`: one action of a segment task. -/
structure SegAction where
  node : Int
  typ : ActionType
  shard : String
  segmentID : Int
  scope : DataScope
deriving DecidableEq, Repr

/-- A segment task as produced by the checker (the fields the checker sets). -/
structure SegTask where
  collectionID : Int
  replicaID : Int
  actions : List SegAction
  reason : String
  priority : TaskPriority
deriving DecidableEq, Repr

/-- An assignment plan returned by the balancer (`balance.SegmentAssignPlan`). -/
structure AssignPlan where
  segment : Segment
  node : Int
  replicaID : Int
deriving DecidableEq, Repr

/-- The read-only snapshot of every collaborator the checker queries, plus the
activation flag.  Fields mirror the collaborator methods used by the source:
meta store, distribution manager, target manager, resource manager, node
manager and balancer. -/
structure CheckerState where
  /-- `meta.ReplicaManager`: all replicas (`Get`, `GetByCollection`). -/
  replicas : List Replica
  /-- `meta.CollectionManager.GetAll()`: the live collection ids. -/
  collections : List Int
  /-- `meta.GetCollection(id) != nil`. -/
  collectionExists : Int → Bool
  /-- `meta.CollectionManager.GetPartition(id) != nil`. -/
  partitionExists : Int → Bool
  /-- `dist.SegmentDistManager.GetByFilter(WithCollectionID(c), WithNodeID(n))`. -/
  segmentDist : Int → Int → List Segment
  /-- `dist.SegmentDistManager.GetByFilter()` with no filter. -/
  allSegments : List Segment
  /-- `dist.ChannelDistManager.GetShardLeadersByReplica`: channel → leader node. -/
  shardLeaders : Replica → List (String × Int)
  /-- `dist.ChannelDistManager.GetShardLeader(replica, channel)`. -/
  shardLeader : Replica → String → Option Int
  /-- `dist.LeaderViewManager.GetLeaderShardView(node, channel)`; `none` is Go `nil`. -/
  leaderView : Int → String → Option LeaderView
  /-- `dist.LeaderViewManager.GetLatestLeadersByReplicaShard(replica, channel)`. -/
  latestLeader : Replica → String → Option LeaderView
  /-- `targetMgr.IsNextTargetExist(collectionID)`. -/
  nextTargetExist : Int → Bool
  /-- `targetMgr.IsCurrentTargetExist(collectionID)`. -/
  currentTargetExist : Int → Bool
  /-- `targetMgr.GetSealedSegmentsByCollection(c, NextTarget)` as an association list. -/
  sealedNext : Int → List (Int × SegmentInfo)
  /-- `targetMgr.GetSealedSegmentsByCollection(c, CurrentTarget)` as an association list. -/
  sealedCurrent : Int → List (Int × SegmentInfo)
  /-- `targetMgr.GetGrowingSegmentsByCollection(c, NextTarget)` id set. -/
  growingNext : Int → List Int
  /-- `targetMgr.GetGrowingSegmentsByCollection(c, CurrentTarget)` id set. -/
  growingCurrent : Int → List Int
  /-- `targetMgr.GetDmChannelsByCollection(c, CurrentTarget)`. -/
  dmChannelsCurrent : Int → List (String × DmChannel)
  /-- `targetMgr.GetCollectionTargetVersion(c, CurrentTarget)`. -/
  targetVersion : Int → Int
  /-- `targetMgr.GetSealedSegment(collectionID, segmentID, CurrentTargetFirst)`. -/
  sealedSegmentCTF : Int → Int → Option SegmentInfo
  /-- `meta.ResourceManager.CheckOutboundNodes(replica)`. -/
  outboundNodes : Replica → List Int
  /-- `nodeMgr.IsStoppingNode(node)`; `none` models the error return. -/
  isStoppingNode : Int → Option Bool
  /-- `balancer.AssignSegment(collectionID, segments, nodes, false)` (external). -/
  assignSegment : Int → List Segment → List Int → List AssignPlan
  /-- Modelled from the spec: `balance.CreateSegmentTasksFromPlans` (external to
  this file's source) converts assignment plans into timeout-scoped load tasks. -/
  tasksFromPlans : List AssignPlan → List SegTask
  /-- Modelled from the spec: `task.NewSegmentTask` (external to this file's
  source) may fail with a construction error; `true` means construction of a
  reduce task for this collection and action fails and the segment is skipped. -/
  segmentTaskFails : Int → SegAction → Bool
  /-- `c.IsActive()` of the embedded checker activation. -/
  isActive : Bool

/-- `c.meta.Get(replicaID)` (replica lookup by id). -/
def getReplica (st : CheckerState) (replicaID : Int) : Option Replica :=
  st.replicas.find? (fun r => r.id == replicaID)

/-- `c.meta.ReplicaManager.GetByCollection(collectionID)`. -/
def getReplicasByCollection (st : CheckerState) (collectionID : Int) : List Replica :=
  st.replicas.filter (fun r => r.collectionID == collectionID)

/-- `initialTargetVersion` constant of the source. -/
def initialTargetVersion : Int := 0

/-- `(c *SegmentChecker) readyToCheck(collectionID)`. -/
def readyToCheck (st : CheckerState) (collectionID : Int) : Bool :=
  st.collectionExists collectionID &&
    (st.nextTargetExist collectionID || st.currentTargetExist collectionID)

/-- `(c *SegmentChecker) getSealedSegmentsDist(replica)`: concatenation of the
per-node sealed distributions, in node-list order. -/
def getSealedSegmentsDist (st : CheckerState) (replica : Replica) : List Segment :=
  replica.nodes.flatMap (fun node => st.segmentDist replica.collectionID node)

/-- The test `findRepeatedSealedSegments` applies to each distributed segment:
does the segment resolve (current target first) to an L0 segment? -/
def isL0InTarget (st : CheckerState) (s : Segment) : Bool :=
  match st.sealedSegmentCTF s.getCollectionID s.getID with
  | some seg => seg.level == SegmentLevel.L0
  | none => false

/-- The loop of `findRepeatedSealedSegments`: walks the distribution keeping a
`versions` map (segmentID → highest-version placement seen so far, as an
association list where a fresh cons shadows older entries) and returns the
emitted releasable placements together with the final map. -/
def repeatedAux (st : CheckerState) :
    List Segment → List (Int × Segment) → List Segment × List (Int × Segment)
  | [], versions => ([], versions)
  | s :: rest, versions =>
    if isL0InTarget st s then
      repeatedAux st rest versions
    else
      match versions.lookup s.getID with
      | none => repeatedAux st rest ((s.getID, s) :: versions)
      | some maxVer =>
        if maxVer.version ≤ s.version then
          let out := repeatedAux st rest ((s.getID, s) :: versions)
          (maxVer :: out.1, out.2)
        else
          let out := repeatedAux st rest versions
          (s :: out.1, out.2)

/-- `(c *SegmentChecker) findRepeatedSealedSegments(replicaID)`. -/
def findRepeatedSealedSegments (st : CheckerState) (replicaID : Int) : List Segment :=
  match getReplica st replicaID with
  | none => []
  | some replica => (repeatedAux st (getSealedSegmentsDist st replica) []).1

/-- Insertion of one segment into a version-sorted list. -/
def insertByVersion (s : Segment) : List Segment → List Segment
  | [] => [s]
  | t :: rest =>
    if s.version ≤ t.version then s :: t :: rest else t :: insertByVersion s rest

/-- One admissible outcome of the source's `sort.Slice(dist, Version <)`: an
insertion sort ascending by version.  (`sort.Slice` promises only a sorted
permutation; theorems that depend on the order are stated over every sorted
permutation instead of this particular one.) -/
def sortByVersion : List Segment → List Segment
  | [] => []
  | s :: rest => insertByVersion s (sortByVersion rest)

/-- The `distMap` loop of `getSealedSegmentDiff`: a Go map write for each
placement in order, a later write shadowing earlier ones. -/
def buildDistMap (dist : List Segment) : List (Int × Int) :=
  dist.foldl (fun m s => (s.getID, s.node) :: m) []

/-- The per-target-entry load test of `getSealedSegmentDiff`:
`!existInDist || l0WithWrongLocation`. -/
def sealedLoadCheck (st : CheckerState) (replica : Replica)
    (distMap : List (Int × Int)) (segmentID : Int) (segment : SegmentInfo) : Bool :=
  match distMap.lookup segmentID with
  | none => true
  | some node =>
    if segment.level == SegmentLevel.L0 then
      match st.latestLeader replica segment.insertChannel with
      | none => false
      | some leader => node != leader.id
    else
      false

/-- Load candidates of `getSealedSegmentDiff` before L0 narrowing: next-target
entries failing the dist test, then current-target entries not already covered
by next target and failing the same test. -/
def sealedLoadCandidates (st : CheckerState) (collectionID : Int) (replica : Replica)
    (distMap : List (Int × Int)) : List SegmentInfo :=
  let nextTargetMap := st.sealedNext collectionID
  let currentTargetMap := st.sealedCurrent collectionID
  ((nextTargetMap.filter (fun p => sealedLoadCheck st replica distMap p.1 p.2)).map Prod.snd) ++
    (((currentTargetMap.filter (fun p => (nextTargetMap.lookup p.1).isNone)).filter
        (fun p => sealedLoadCheck st replica distMap p.1 p.2)).map Prod.snd)

/-- Body of `getSealedSegmentDiff` parameterised by the sorted distribution
(`dist` stands for the output of `sort.Slice`). -/
def getSealedSegmentDiffWith (st : CheckerState) (collectionID : Int) (replica : Replica)
    (dist : List Segment) : List SegmentInfo × List Segment :=
  let distMap := buildDistMap dist
  let toLoad := sealedLoadCandidates st collectionID replica distMap
  let toRelease := dist.filter (fun s =>
    ((st.sealedCurrent collectionID).lookup s.getID).isNone &&
      ((st.sealedNext collectionID).lookup s.getID).isNone)
  let level0Segments := toLoad.filter (fun s => s.level == SegmentLevel.L0)
  (if 0 < level0Segments.length then level0Segments else toLoad, toRelease)

/-- `(c *SegmentChecker) getSealedSegmentDiff(collectionID, replicaID)`. -/
def getSealedSegmentDiff (st : CheckerState) (collectionID replicaID : Int) :
    List SegmentInfo × List Segment :=
  match getReplica st replicaID with
  | none => ([], [])
  | some replica =>
    getSealedSegmentDiffWith st collectionID replica
      (sortByVersion (getSealedSegmentsDist st replica))

/-- `(c *SegmentChecker) getGrowingSegmentDiff(collectionID, replicaID)`.
The load side is intentionally always empty in the source. -/
def getGrowingSegmentDiff (st : CheckerState) (collectionID replicaID : Int) :
    List SegmentInfo × List Segment :=
  match getReplica st replicaID with
  | none => ([], [])
  | some replica =>
    ([], (st.shardLeaders replica).flatMap (fun p =>
      match st.leaderView p.2 p.1 with
      | none => []
      | some view =>
        if view.targetVersion != st.targetVersion collectionID then []
        else
          view.growingSegments.filter (fun segment =>
            !((st.growingCurrent collectionID).contains segment.getID) &&
            !((st.growingNext collectionID).contains segment.getID) &&
            (match (st.dmChannelsCurrent collectionID).lookup segment.getInsertChannel with
             | none => false
             | some channel => decide (segment.getStartPosTs < channel.seekPosTs)))))

/-- The per-candidate keep test realised by `filterExistedOnLeader` on runs
that do not fault: keep unless no shard leader resolves, or the leader's view
maps the candidate's segmentID to the candidate's own node.  (The leader-view
`none` branch is the nil dereference of the source; on a successful run it is
never taken.) -/
def existedOnLeaderKeeps (st : CheckerState) (replica : Replica) (s : Segment) : Bool :=
  match st.shardLeader replica s.getInsertChannel with
  | none => false
  | some leaderID =>
    match st.leaderView leaderID s.getInsertChannel with
    | none => true
    | some view =>
      match view.segments.lookup s.getID with
      | some seg => seg.nodeID != s.node
      | none => true

/-- `(c *SegmentChecker) filterExistedOnLeader(replica, segments)`.
`none` models the nil-pointer dereference `view.Segments` when
`GetShardLeader` succeeds but `GetLeaderShardView` returns nil. -/
def filterExistedOnLeader (st : CheckerState) (replica : Replica) :
    List Segment → Option (List Segment)
  | [] => some []
  | s :: rest =>
    match st.shardLeader replica s.getInsertChannel with
    | none => filterExistedOnLeader st replica rest
    | some leaderID =>
      match st.leaderView leaderID s.getInsertChannel with
      | none => none
      | some view =>
        match view.segments.lookup s.getID with
        | some seg =>
          if seg.nodeID == s.node then
            filterExistedOnLeader st replica rest
          else
            (filterExistedOnLeader st replica rest).map (fun l => s :: l)
        | none => (filterExistedOnLeader st replica rest).map (fun l => s :: l)

/-- The per-candidate keep test realised by `filterSegmentInUse` on runs that
do not fault: keep unless no shard leader resolves, or the candidate's
partition still exists and the leader's adopted target version is non-initial
and strictly below the collection's current target version. -/
def segmentInUseKeeps (st : CheckerState) (replica : Replica) (s : Segment) : Bool :=
  match st.shardLeader replica s.getInsertChannel with
  | none => false
  | some leaderID =>
    match st.leaderView leaderID s.getInsertChannel with
    | none => true
    | some view =>
      !(st.partitionExists s.getPartitionID &&
        (view.targetVersion != initialTargetVersion) &&
        decide (view.targetVersion < st.targetVersion s.getCollectionID))

/-- `(c *SegmentChecker) filterSegmentInUse(replica, segments)`.
`none` models the nil-pointer dereference `view.TargetVersion` when
`GetShardLeader` succeeds but `GetLeaderShardView` returns nil. -/
def filterSegmentInUse (st : CheckerState) (replica : Replica) :
    List Segment → Option (List Segment)
  | [] => some []
  | s :: rest =>
    match st.shardLeader replica s.getInsertChannel with
    | none => filterSegmentInUse st replica rest
    | some leaderID =>
      match st.leaderView leaderID s.getInsertChannel with
      | none => none
      | some view =>
        if st.partitionExists s.getPartitionID &&
            (view.targetVersion != initialTargetVersion) &&
            decide (view.targetVersion < st.targetVersion s.getCollectionID) then
          filterSegmentInUse st replica rest
        else
          (filterSegmentInUse st replica rest).map (fun l => s :: l)

/-- First-occurrence list of insert channels, standing in for the keys of
`lo.GroupBy(segments, InsertChannel)` (Go map iteration order is unspecified;
only the grouping itself matters to the statements proved below). -/
def channelsOf (segments : List SegmentInfo) : List String :=
  (segments.map (fun s => s.insertChannel)).eraseDups

/-- The `availableNodes` filter of `createSegmentLoadTasks`: replica nodes that
are not outbound, not stopping, and for which `IsStoppingNode` did not error. -/
def availableNodes (st : CheckerState) (replica : Replica) : List Int :=
  replica.nodes.filter (fun node =>
    match st.isStoppingNode node with
    | none => false
    | some stop => !((st.outboundNodes replica).contains node) && !stop)

/-- The per-shard loop of `createSegmentLoadTasks`.  The Go loop mutates
`availableNodes` when the batch is L0 (restricting it to the leader's node for
this and every later iteration), so the node list is threaded through. -/
def loadPlansLoop (st : CheckerState) (replica : Replica) (isLevel0 : Bool)
    (segments : List SegmentInfo) :
    List String → List Int → List AssignPlan
  | [], _ => []
  | shard :: rest, avail =>
    match st.latestLeader replica shard with
    | none => loadPlansLoop st replica isLevel0 segments rest avail
    | some leader =>
      let avail2 := if isLevel0 then [leader.id] else avail
      let segmentInfos := (segments.filter (fun s => s.insertChannel == shard)).map
        (fun si => ({ info := si, node := 0, version := 0 } : Segment))
      let shardPlans := (st.assignSegment replica.collectionID segmentInfos avail2).map
        (fun p => { p with replicaID := replica.id })
      shardPlans ++ loadPlansLoop st replica isLevel0 segments rest avail2

/-- `(c *SegmentChecker) createSegmentLoadTasks(ctx, segments, replica)`. -/
def createSegmentLoadTasks (st : CheckerState) (segments : List SegmentInfo)
    (replica : Replica) : List SegTask :=
  match segments with
  | [] => []
  | s0 :: _ =>
    let avail := availableNodes st replica
    if avail.isEmpty then []
    else
      let isLevel0 := s0.level == SegmentLevel.L0
      st.tasksFromPlans (loadPlansLoop st replica isLevel0 segments (channelsOf segments) avail)

/-- The reduce action built for one release candidate:
`NewSegmentActionWithScope(s.Node, ActionTypeReduce, s.GetInsertChannel(), s.GetID(), scope)`. -/
def reduceAction (s : Segment) (scope : DataScope) : SegAction :=
  { node := s.node, typ := ActionType.Reduce, shard := s.getInsertChannel,
    segmentID := s.getID, scope := scope }

/-- `(c *SegmentChecker) createSegmentReduceTasks(ctx, segments, replica, scope)`:
one single-action reduce task per candidate; a construction failure skips that
candidate only. -/
def createSegmentReduceTasks (st : CheckerState) (segments : List Segment)
    (replica : Replica) (scope : DataScope) : List SegTask :=
  segments.filterMap (fun s =>
    let action := reduceAction s scope
    if st.segmentTaskFails s.getCollectionID action then none
    else
      some { collectionID := s.getCollectionID, replicaID := replica.id,
             actions := [action], reason := "", priority := TaskPriority.Low })

/-- `task.SetReason(reason, tasks...)`. -/
def setReason (reason : String) (tasks : List SegTask) : List SegTask :=
  tasks.map (fun t => { t with reason := reason })

/-- `task.SetPriority(priority, tasks...)`. -/
def setPriority (priority : TaskPriority) (tasks : List SegTask) : List SegTask :=
  tasks.map (fun t => { t with priority := priority })

/-- Modelled from the spec: `utils.FilterReleased` (external to this file's
source) keeps the segments whose collection is no longer in the live
collection set. -/
def FilterReleased (segments : List Segment) (collectionIDs : List Int) : List Segment :=
  segments.filter (fun s => !(collectionIDs.contains s.getCollectionID))

/-- `(c *SegmentChecker) checkReplica(ctx, replica)`, in the `Option` monad so
that a faulting staleness filter aborts the whole call like a Go panic. -/
def checkReplica (st : CheckerState) (replica : Replica) : Option (List SegTask) := do
  let diff := getSealedSegmentDiff st replica.collectionID replica.id
  let tasks1 := setReason "lacks of segment" (createSegmentLoadTasks st diff.1 replica)
  let red2 ← filterSegmentInUse st replica diff.2
  let tasks2 := setReason "segment not exists in target"
    (createSegmentReduceTasks st red2 replica DataScope.Historical)
  let red3 ← filterExistedOnLeader st replica (findRepeatedSealedSegments st replica.id)
  let tasks3 := setReason "redundancies of segment"
    (createSegmentReduceTasks st red3 replica DataScope.Historical)
  let growing := getGrowingSegmentDiff st replica.collectionID replica.id
  let tasks4 := setReason "streaming segment not exists in target"
    (createSegmentReduceTasks st growing.2 replica DataScope.Streaming)
  pure (tasks1 ++ tasks2 ++ tasks3 ++ tasks4)

/-- The inner replica loop of `Check`. -/
def checkReplicas (st : CheckerState) : List Replica → Option (List SegTask)
  | [] => some []
  | r :: rest => do
    let h ← checkReplica st r
    let t ← checkReplicas st rest
    pure (h ++ t)

/-- The collection loop of `Check`. -/
def checkCollections (st : CheckerState) : List Int → Option (List SegTask)
  | [] => some []
  | cid :: rest => do
    let h ← if readyToCheck st cid then checkReplicas st (getReplicasByCollection st cid)
            else pure []
    let t ← checkCollections st rest
    pure (h ++ t)

/-- `(c *SegmentChecker) Check(ctx)`: per-replica reconciliation, then the
unconditional cleanup of segments of released collections, then a uniform
normal priority on every returned task. -/
def Check (st : CheckerState) : Option (List SegTask) :=
  if !st.isActive then some []
  else
    match checkCollections st st.collections with
    | none => none
    | some results =>
      let released := FilterReleased st.allSegments st.collections
      let reduceTasks := setReason "collection released"
        (createSegmentReduceTasks st released NilReplica DataScope.Historical)
      some (setPriority TaskPriority.Normal (results ++ reduceTasks))

/-- The load-candidate list `getSealedSegmentDiff` computes before L0
narrowing, with the distribution sorted by `sortByVersion`. -/
def sealedCandidatesOf (st : CheckerState) (collectionID : Int) (replica : Replica) :
    List SegmentInfo :=
  sealedLoadCandidates st collectionID replica
    (buildDistMap (sortByVersion (getSealedSegmentsDist st replica)))

/-- Sortedness ascending by version: the postcondition `sort.Slice` guarantees
for the comparator `Version <` (together with being a permutation). -/
abbrev sortedByVersionAsc (l : List Segment) : Prop :=
  l.Pairwise (fun a b => a.version ≤ b.version)

/-- Invariant of the `findRepeatedSealedSegments` walk, for one segmentID `k`:
relates the non-L0 placements of `k` still to be walked (`incoming`), the
tracked placement before and after the walk, and the placements of `k` emitted
as releasable (`releasedk`).  One placement survives as the tracked maximum;
everything else is emitted. -/
def dupInv (incoming : List Segment) (before after : Option Segment)
    (releasedk : List Segment) : Prop :=
  match before, after with
  | none, none => incoming = [] ∧ releasedk = []
  | none, some m =>
      (m :: releasedk).Perm incoming ∧ ∀ s ∈ incoming, s.version ≤ m.version
  | some m0, some m =>
      (m :: releasedk).Perm (m0 :: incoming) ∧ ∀ s ∈ m0 :: incoming, s.version ≤ m.version
  | some _, none => False

/-! ### Concrete states used by witnesses and counterexamples -/

/-- A quiescent snapshot every concrete witness state below is an update of. -/
def baseState : CheckerState :=
  { replicas := []
    collections := []
    collectionExists := fun _ => false
    partitionExists := fun _ => false
    segmentDist := fun _ _ => []
    allSegments := []
    shardLeaders := fun _ => []
    shardLeader := fun _ _ => none
    leaderView := fun _ _ => none
    latestLeader := fun _ _ => none
    nextTargetExist := fun _ => false
    currentTargetExist := fun _ => false
    sealedNext := fun _ => []
    sealedCurrent := fun _ => []
    growingNext := fun _ => []
    growingCurrent := fun _ => []
    dmChannelsCurrent := fun _ => []
    targetVersion := fun _ => 0
    sealedSegmentCTF := fun _ _ => none
    outboundNodes := fun _ => []
    isStoppingNode := fun _ => some false
    assignSegment := fun _ _ _ => []
    tasksFromPlans := fun _ => []
    segmentTaskFails := fun _ _ => false
    isActive := true }

/-- Replica used by the C2 witness. -/
def replicaC2 : Replica := { id := 1, collectionID := 1, nodes := [1] }

/-- An L0 segment listed in the next target but absent from distribution. -/
def infoL0C2 : SegmentInfo :=
  { segmentID := 20, collectionID := 1, partitionID := 1, insertChannel := "ch",
    level := SegmentLevel.L0, startPosTs := 0 }

/-- A normal segment listed in the next target but absent from distribution. -/
def infoL1C2 : SegmentInfo :=
  { segmentID := 21, collectionID := 1, partitionID := 1, insertChannel := "ch",
    level := SegmentLevel.L1, startPosTs := 0 }

/-- State for the C2 witness: next target has one L0 and one normal segment,
the distribution has neither, so both are load candidates. -/
def stC2 : CheckerState :=
  { baseState with
    replicas := [replicaC2]
    collections := [1]
    collectionExists := fun c => c == 1
    nextTargetExist := fun c => c == 1
    sealedNext := fun c => if c == 1 then [(20, infoL0C2), (21, infoL1C2)] else [] }

/-- A state in which every node of the replica is unavailable: node 1 is
stopping, node 2 makes `IsStoppingNode` error, node 3 is outbound. -/
def stC10 : CheckerState :=
  { replicas := [{ id := 1, collectionID := 1, nodes := [1, 2, 3] }]
    collections := [1]
    collectionExists := fun c => c == 1
    partitionExists := fun _ => false
    segmentDist := fun _ _ => []
    allSegments := []
    shardLeaders := fun _ => []
    shardLeader := fun _ _ => none
    leaderView := fun _ _ => none
    latestLeader := fun _ _ => none
    nextTargetExist := fun _ => false
    currentTargetExist := fun c => c == 1
    sealedNext := fun _ => []
    sealedCurrent := fun _ => []
    growingNext := fun _ => []
    growingCurrent := fun _ => []
    dmChannelsCurrent := fun _ => []
    targetVersion := fun _ => 0
    sealedSegmentCTF := fun _ _ => none
    outboundNodes := fun _ => [3]
    isStoppingNode := fun n => if n == 1 then some true else if n == 2 then none else some false
    assignSegment := fun _ _ _ => []
    tasksFromPlans := fun _ => []
    segmentTaskFails := fun _ _ => false
    isActive := true }

def replicaC10 : Replica := { id := 1, collectionID := 1, nodes := [1, 2, 3] }

def segInfoC10 : SegmentInfo :=
  { segmentID := 4, collectionID := 1, partitionID := 1, insertChannel := "ch",
    level := SegmentLevel.L1, startPosTs := 0 }


/-- Replica used by the filter witnesses. -/
def replicaF : Replica := { id := 1, collectionID := 1, nodes := [1, 2] }

/-- C6 candidate on a channel with no resolvable shard leader. -/
def segC6A : Segment :=
  { info := { segmentID := 30, collectionID := 1, partitionID := 1, insertChannel := "chA",
              level := SegmentLevel.L1, startPosTs := 0 }, node := 1, version := 1 }

/-- C6 candidate the leader reports as served by the candidate's own node. -/
def segC6B : Segment :=
  { info := { segmentID := 31, collectionID := 1, partitionID := 1, insertChannel := "chB",
              level := SegmentLevel.L1, startPosTs := 0 }, node := 1, version := 1 }

/-- C6 candidate the leader reports as served by a different node. -/
def segC6C : Segment :=
  { info := { segmentID := 32, collectionID := 1, partitionID := 1, insertChannel := "chC",
              level := SegmentLevel.L1, startPosTs := 0 }, node := 1, version := 1 }

/-- C6 candidate the leader does not report at all. -/
def segC6D : Segment :=
  { info := { segmentID := 33, collectionID := 1, partitionID := 1, insertChannel := "chC",
              level := SegmentLevel.L1, startPosTs := 0 }, node := 1, version := 1 }

/-- State for the C6 witness: no leader for `chA`; the `chB` leader serves
segment 31 on node 1; the `chC` leader serves segment 32 on node 2. -/
def stC6 : CheckerState :=
  { baseState with
    shardLeader := fun _ ch => if ch == "chB" || ch == "chC" then some 9 else none
    leaderView := fun n ch =>
      if n == 9 && ch == "chB" then
        some { id := 9, targetVersion := 0, growingSegments := [], segments := [(31, { nodeID := 1 })] }
      else if n == 9 && ch == "chC" then
        some { id := 9, targetVersion := 0, growingSegments := [], segments := [(32, { nodeID := 2 })] }
      else none }

/-- C4 candidate on a channel with no resolvable shard leader. -/
def segC4A : Segment :=
  { info := { segmentID := 40, collectionID := 1, partitionID := 1, insertChannel := "chA",
              level := SegmentLevel.L1, startPosTs := 0 }, node := 1, version := 1 }

/-- C4 candidate whose partition exists while the leader lags (version 3 < 5). -/
def segC4B : Segment :=
  { info := { segmentID := 41, collectionID := 1, partitionID := 1, insertChannel := "chB",
              level := SegmentLevel.L1, startPosTs := 0 }, node := 1, version := 1 }

/-- C4 candidate whose partition no longer exists (partition 2). -/
def segC4C : Segment :=
  { info := { segmentID := 42, collectionID := 1, partitionID := 2, insertChannel := "chB",
              level := SegmentLevel.L1, startPosTs := 0 }, node := 1, version := 1 }

/-- C4 candidate whose channel leader still has the initial target version 0. -/
def segC4D : Segment :=
  { info := { segmentID := 43, collectionID := 1, partitionID := 1, insertChannel := "chC",
              level := SegmentLevel.L1, startPosTs := 0 }, node := 1, version := 1 }

/-- C4 candidate whose channel leader has caught up (version 5 = current). -/
def segC4E : Segment :=
  { info := { segmentID := 44, collectionID := 1, partitionID := 1, insertChannel := "chD",
              level := SegmentLevel.L1, startPosTs := 0 }, node := 1, version := 1 }

/-- State for the C4 witness: current target version 5; leaders of `chB`,
`chC`, `chD` have adopted versions 3, 0 and 5; partition 1 exists, 2 does not. -/
def stC4 : CheckerState :=
  { baseState with
    partitionExists := fun p => p == 1
    targetVersion := fun c => if c == 1 then 5 else 0
    shardLeader := fun _ ch => if ch == "chA" then none else some 9
    leaderView := fun n ch =>
      if n == 9 && ch == "chB" then
        some { id := 9, targetVersion := 3, growingSegments := [], segments := [] }
      else if n == 9 && ch == "chC" then
        some { id := 9, targetVersion := 0, growingSegments := [], segments := [] }
      else if n == 9 && ch == "chD" then
        some { id := 9, targetVersion := 5, growingSegments := [], segments := [] }
      else none }

/-- C5 failing input: a release candidate on a channel whose shard leader
resolves while no leader view is registered for that (leader, channel) pair. -/
def segC5 : Segment :=
  { info := { segmentID := 10, collectionID := 1, partitionID := 1, insertChannel := "ch",
              level := SegmentLevel.L1, startPosTs := 0 }, node := 1, version := 1 }

/-- Replica used by the C5 failing input. -/
def replicaC5 : Replica := { id := 1, collectionID := 1, nodes := [1] }

/-- State for the C5 failing input: `GetShardLeader` resolves node 2 for
channel `ch`, but `GetLeaderShardView(2, "ch")` is nil; the distribution holds
`segC5`, which no target references, so it becomes a release candidate that
reaches `filterSegmentInUse`. -/
def stC5 : CheckerState :=
  { baseState with
    replicas := [replicaC5]
    collections := [1]
    collectionExists := fun c => c == 1
    currentTargetExist := fun c => c == 1
    segmentDist := fun c n => if c == 1 && n == 1 then [segC5] else []
    allSegments := [segC5]
    shardLeader := fun _ ch => if ch == "ch" then some 2 else none }

/-- First-reported placement of segment 7, version 5, on node 1. -/
def segC7A : Segment :=
  { info := { segmentID := 7, collectionID := 1, partitionID := 1, insertChannel := "ch",
              level := SegmentLevel.L1, startPosTs := 0 }, node := 1, version := 5 }

/-- Later-reported placement of segment 7, same version 5, on node 2. -/
def segC7B : Segment :=
  { info := { segmentID := 7, collectionID := 1, partitionID := 1, insertChannel := "ch",
              level := SegmentLevel.L1, startPosTs := 0 }, node := 2, version := 5 }

/-- Replica used by the C7 counterexample. -/
def replicaC7 : Replica := { id := 1, collectionID := 1, nodes := [1, 2] }

/-- State for C7: two placements of segment 7 with equal versions; node 1's
placement is walked first. -/
def stC7 : CheckerState :=
  { baseState with
    replicas := [replicaC7]
    segmentDist := fun c n =>
      if c == 1 && n == 1 then [segC7A] else if c == 1 && n == 2 then [segC7B] else [] }

/-- C8 tie pair: segment 8 version 1 reported on node 1. -/
def segC8A : Segment :=
  { info := { segmentID := 8, collectionID := 1, partitionID := 1, insertChannel := "ch",
              level := SegmentLevel.L1, startPosTs := 0 }, node := 1, version := 1 }

/-- C8 tie pair: segment 8 version 1 reported on node 2. -/
def segC8B : Segment :=
  { info := { segmentID := 8, collectionID := 1, partitionID := 1, insertChannel := "ch",
              level := SegmentLevel.L1, startPosTs := 0 }, node := 2, version := 1 }

/-- C8 amended-witness pair: segment 9 version 1 on node 1. -/
def segC8C : Segment :=
  { info := { segmentID := 9, collectionID := 1, partitionID := 1, insertChannel := "ch",
              level := SegmentLevel.L1, startPosTs := 0 }, node := 1, version := 1 }

/-- C8 amended-witness pair: segment 9 version 2 on node 2. -/
def segC8D : Segment :=
  { info := { segmentID := 9, collectionID := 1, partitionID := 1, insertChannel := "ch",
              level := SegmentLevel.L1, startPosTs := 0 }, node := 2, version := 2 }

/-- Growing segment behind the watermark: start position 100. -/
def segC3G1 : Segment :=
  { info := { segmentID := 50, collectionID := 1, partitionID := 1, insertChannel := "ch",
              level := SegmentLevel.L1, startPosTs := 100 }, node := 7, version := 1 }

/-- Growing segment not behind the watermark: start position 200. -/
def segC3G2 : Segment :=
  { info := { segmentID := 51, collectionID := 1, partitionID := 1, insertChannel := "ch",
              level := SegmentLevel.L1, startPosTs := 200 }, node := 7, version := 1 }

/-- Replica used by the C3 witness. -/
def replicaC3 : Replica := { id := 1, collectionID := 1, nodes := [7] }

/-- State for the C3 witness: one channel led by node 7 whose leader view has
adopted the current target version 5 and reports two growing segments; the
current target's channel watermark is 150; neither segment is in any target
growing set. -/
def stC3 : CheckerState :=
  { baseState with
    replicas := [replicaC3]
    collections := [1]
    collectionExists := fun c => c == 1
    currentTargetExist := fun c => c == 1
    shardLeaders := fun r => if r.id == 1 then [("ch", 7)] else []
    leaderView := fun n ch =>
      if n == 7 && ch == "ch" then
        some { id := 7, targetVersion := 5, growingSegments := [segC3G1, segC3G2],
               segments := [] }
      else none
    dmChannelsCurrent := fun c => if c == 1 then [("ch", { seekPosTs := 150 })] else []
    targetVersion := fun c => if c == 1 then 5 else 0 }

/-- A segment of the still-live collection 1. -/
def segC9Live : Segment :=
  { info := { segmentID := 59, collectionID := 1, partitionID := 1, insertChannel := "ch",
              level := SegmentLevel.L1, startPosTs := 0 }, node := 3, version := 1 }

/-- A segment of the released collection 2, still present in distribution. -/
def segC9Dead : Segment :=
  { info := { segmentID := 60, collectionID := 2, partitionID := 1, insertChannel := "ch",
              level := SegmentLevel.L1, startPosTs := 0 }, node := 3, version := 1 }

/-- State for the C9 witness: live collections are `[1]`; the distribution
still reports a segment of the released collection 2. -/
def stC9 : CheckerState :=
  { baseState with
    collections := [1]
    collectionExists := fun c => c == 1
    allSegments := [segC9Live, segC9Dead] }

/-- The single cleanup task `Check` produces on `stC9`. -/
def taskC9 : SegTask :=
  { collectionID := 2, replicaID := -1,
    actions := [{ node := 3, typ := ActionType.Reduce, shard := "ch",
                  segmentID := 60, scope := DataScope.Historical }],
    reason := "collection released", priority := TaskPriority.Normal }

/-- Placement of segment 10, version 1, on node 1. -/
def segC1V1 : Segment :=
  { info := { segmentID := 10, collectionID := 1, partitionID := 1, insertChannel := "ch",
              level := SegmentLevel.L1, startPosTs := 0 }, node := 1, version := 1 }

/-- Placement of segment 10, version 2, on node 2. -/
def segC1V2 : Segment :=
  { info := { segmentID := 10, collectionID := 1, partitionID := 1, insertChannel := "ch",
              level := SegmentLevel.L1, startPosTs := 0 }, node := 2, version := 2 }

/-- Placement of segment 10, version 3, on node 3. -/
def segC1V3 : Segment :=
  { info := { segmentID := 10, collectionID := 1, partitionID := 1, insertChannel := "ch",
              level := SegmentLevel.L1, startPosTs := 0 }, node := 3, version := 3 }

/-- Replica used by the C1 witness. -/
def replicaC1 : Replica := { id := 1, collectionID := 1, nodes := [1, 2, 3] }

/-- State for the C1 witness: segment 10 is reported three times with
strictly increasing versions on nodes 1, 2 and 3. -/
def stC1 : CheckerState :=
  { baseState with
    replicas := [replicaC1]
    segmentDist := fun c n =>
      if c == 1 && n == 1 then [segC1V1]
      else if c == 1 && n == 2 then [segC1V2]
      else if c == 1 && n == 3 then [segC1V3]
      else [] }

/-! ### Shared helper lemmas -/

theorem length_pos_of_exists_mem {α : Type} {l : List α} {p : α → Bool}
    (h : ∃ s ∈ l, p s = true) : 0 < (l.filter p).length := by
  rcases h with ⟨s, hs, hp⟩
  exact List.length_pos_of_mem (List.mem_filter.mpr ⟨hs, hp⟩)

/-! ### C10: node filtering in createSegmentLoadTasks -/

/-- C10: `createSegmentLoadTasks` excludes from the candidate node set every
replica node that is stopping, outbound for the replica, or for which
`IsStoppingNode` errors (the node counts as unavailable); and when the
available-node set is empty it produces no load tasks at all. -/
theorem createSegmentLoadTasks_availability (st : CheckerState)
    (segments : List SegmentInfo) (replica : Replica) :
    (∀ n : Int, n ∈ availableNodes st replica ↔
      n ∈ replica.nodes ∧ st.isStoppingNode n = some false ∧
        n ∉ st.outboundNodes replica) ∧
    (availableNodes st replica = [] →
      createSegmentLoadTasks st segments replica = []) := by
  constructor
  · intro n
    simp only [availableNodes, List.mem_filter]
    cases hstop : st.isStoppingNode n with
    | none => simp [hstop]
    | some stop =>
      cases stop <;> simp [hstop, List.contains, List.elem_eq_mem]
  · intro hempty
    cases segments with
    | nil => rfl
    | cons s0 rest =>
      simp only [createSegmentLoadTasks, hempty, List.isEmpty_nil, if_pos]

/-- Witness for C10: with a stopping node, an erroring node and an outbound
node, the available set is empty and no load task is produced even though a
candidate segment exists. -/
theorem createSegmentLoadTasks_availability_witness :
    availableNodes stC10 replicaC10 = [] ∧
      createSegmentLoadTasks stC10 [segInfoC10] replicaC10 = [] :=
  ⟨by decide, (createSegmentLoadTasks_availability stC10 [segInfoC10] replicaC10).2 (by decide)⟩

/-! ### C2: L0 gating of sealed load candidates -/

/-- C2: if the sealed load candidates contain at least one L0 segment,
`getSealedSegmentDiff` returns exactly the L0 subset as `toLoad`; with no L0
candidate the full candidate list is returned unchanged. -/
theorem getSealedSegmentDiff_l0_gating (st : CheckerState) (collectionID replicaID : Int)
    (replica : Replica) (hrep : getReplica st replicaID = some replica) :
    ((∃ s ∈ sealedCandidatesOf st collectionID replica, s.level = SegmentLevel.L0) →
      (getSealedSegmentDiff st collectionID replicaID).1 =
        (sealedCandidatesOf st collectionID replica).filter
          (fun s => s.level == SegmentLevel.L0)) ∧
    ((∀ s ∈ sealedCandidatesOf st collectionID replica, s.level ≠ SegmentLevel.L0) →
      (getSealedSegmentDiff st collectionID replicaID).1 =
        sealedCandidatesOf st collectionID replica) := by
  have hdiff : getSealedSegmentDiff st collectionID replicaID =
      getSealedSegmentDiffWith st collectionID replica
        (sortByVersion (getSealedSegmentsDist st replica)) := by
    rw [getSealedSegmentDiff, hrep]
  rw [hdiff]
  simp only [getSealedSegmentDiffWith, sealedCandidatesOf]
  constructor
  · intro hex
    have hpos : 0 < ((sealedLoadCandidates st collectionID replica
        (buildDistMap (sortByVersion (getSealedSegmentsDist st replica)))).filter
          (fun s => s.level == SegmentLevel.L0)).length := by
      apply length_pos_of_exists_mem
      rcases hex with ⟨s, hs, hl⟩
      exact ⟨s, hs, by simp [hl]⟩
    rw [if_pos hpos]
  · intro hall
    have hnil : ((sealedLoadCandidates st collectionID replica
        (buildDistMap (sortByVersion (getSealedSegmentsDist st replica)))).filter
          (fun s => s.level == SegmentLevel.L0)) = [] := by
      rw [List.filter_eq_nil_iff]
      intro s hs
      simp only [beq_iff_eq]
      exact hall s hs
    rw [hnil]
    rfl

/-- Witness for C2: with candidates `[infoL0C2, infoL1C2]` the returned load
list is narrowed to exactly the L0 candidate. -/
theorem getSealedSegmentDiff_l0_gating_witness :
    sealedCandidatesOf stC2 1 replicaC2 = [infoL0C2, infoL1C2] ∧
      (getSealedSegmentDiff stC2 1 1).1 = [infoL0C2] :=
  ⟨by decide, by
    have h := (getSealedSegmentDiff_l0_gating stC2 1 1 replicaC2 (by decide)).1
      ⟨infoL0C2, by decide, rfl⟩
    rw [h]; decide⟩

/-! ### C6: filterExistedOnLeader characterization -/

/-- C6: on a run that does not fault, `filterExistedOnLeader` removes a release
candidate exactly when no shard leader resolves for its channel, or the
leader's view maps the candidate's segmentID to the candidate's own node;
every other candidate (in particular one the leader reports as served by a
different node) passes through (`existedOnLeaderKeeps`). -/
theorem filterExistedOnLeader_characterization (st : CheckerState) (replica : Replica)
    (segments out : List Segment)
    (h : filterExistedOnLeader st replica segments = some out) :
    out = segments.filter (existedOnLeaderKeeps st replica) := by
  induction segments generalizing out with
  | nil =>
    simp only [filterExistedOnLeader, Option.some.injEq] at h
    simp [← h]
  | cons s rest ih =>
    cases hl : st.shardLeader replica s.getInsertChannel with
    | none =>
      simp only [filterExistedOnLeader, hl] at h
      have hk : existedOnLeaderKeeps st replica s = false := by
        simp [existedOnLeaderKeeps, hl]
      simp [List.filter_cons, hk, ih _ h]
    | some leaderID =>
      cases hv : st.leaderView leaderID s.getInsertChannel with
      | none => simp [filterExistedOnLeader, hl, hv] at h
      | some view =>
        cases hseg : view.segments.lookup s.getID with
        | none =>
          simp only [filterExistedOnLeader, hl, hv, hseg] at h
          cases hrest : filterExistedOnLeader st replica rest with
          | none => simp [hrest] at h
          | some l =>
            simp only [hrest, Option.map_some', Option.some.injEq] at h
            have hk : existedOnLeaderKeeps st replica s = true := by
              simp [existedOnLeaderKeeps, hl, hv, hseg]
            simp [List.filter_cons, hk, ← h, ih _ hrest]
        | some seg =>
          by_cases hnode : seg.nodeID = s.node
          · simp only [filterExistedOnLeader, hl, hv, hseg] at h
            rw [if_pos (by simp [hnode])] at h
            have hk : existedOnLeaderKeeps st replica s = false := by
              simp [existedOnLeaderKeeps, hl, hv, hseg, hnode]
            simp [List.filter_cons, hk, ih _ h]
          · simp only [filterExistedOnLeader, hl, hv, hseg] at h
            rw [if_neg (by simp [hnode])] at h
            cases hrest : filterExistedOnLeader st replica rest with
            | none => simp [hrest] at h
            | some l =>
              simp only [hrest, Option.map_some', Option.some.injEq] at h
              have hk : existedOnLeaderKeeps st replica s = true := by
                simp [existedOnLeaderKeeps, hl, hv, hseg, hnode]
              simp [List.filter_cons, hk, ← h, ih _ hrest]

/-- Witness for C6: of four candidates — no leader, served on the same node,
served on a different node, not reported — exactly the last two pass. -/
theorem filterExistedOnLeader_characterization_witness :
    [segC6A, segC6B, segC6C, segC6D].filter (existedOnLeaderKeeps stC6 replicaF) =
      [segC6C, segC6D] :=
  (filterExistedOnLeader_characterization stC6 replicaF
    [segC6A, segC6B, segC6C, segC6D] [segC6C, segC6D] (by decide)).symm

/-! ### C4: filterSegmentInUse characterization -/

/-- C4: on a run that does not fault, `filterSegmentInUse` removes a release
candidate exactly when no shard leader resolves for its channel, or the
candidate's partition still exists in meta and the channel leader's adopted
target version is both non-initial and strictly below the collection's current
target version; every other candidate passes through (`segmentInUseKeeps`). -/
theorem filterSegmentInUse_characterization (st : CheckerState) (replica : Replica)
    (segments out : List Segment)
    (h : filterSegmentInUse st replica segments = some out) :
    out = segments.filter (segmentInUseKeeps st replica) := by
  induction segments generalizing out with
  | nil =>
    simp only [filterSegmentInUse, Option.some.injEq] at h
    simp [← h]
  | cons s rest ih =>
    cases hl : st.shardLeader replica s.getInsertChannel with
    | none =>
      simp only [filterSegmentInUse, hl] at h
      have hk : segmentInUseKeeps st replica s = false := by
        simp [segmentInUseKeeps, hl]
      simp [List.filter_cons, hk, ih _ h]
    | some leaderID =>
      cases hv : st.leaderView leaderID s.getInsertChannel with
      | none => simp [filterSegmentInUse, hl, hv] at h
      | some view =>
        cases hcond : (st.partitionExists s.getPartitionID &&
            (view.targetVersion != initialTargetVersion) &&
            decide (view.targetVersion < st.targetVersion s.getCollectionID)) with
        | true =>
          simp only [filterSegmentInUse, hl, hv] at h
          rw [if_pos hcond] at h
          have hk : segmentInUseKeeps st replica s = false := by
            simp only [segmentInUseKeeps, hl, hv, hcond]
            rfl
          simp [List.filter_cons, hk, ih _ h]
        | false =>
          simp only [filterSegmentInUse, hl, hv] at h
          rw [if_neg (by simp [hcond])] at h
          cases hrest : filterSegmentInUse st replica rest with
          | none => simp [hrest] at h
          | some l =>
            simp only [hrest, Option.map_some', Option.some.injEq] at h
            have hk : segmentInUseKeeps st replica s = true := by
              simp only [segmentInUseKeeps, hl, hv, hcond]
              rfl
            simp [List.filter_cons, hk, ← h, ih _ hrest]

/-- Witness for C4: of five candidates — no leader; partition alive with a
lagging leader (3 < 5); partition deleted; leader at the initial version 0;
leader caught up at 5 — exactly the last three pass. -/
theorem filterSegmentInUse_characterization_witness :
    [segC4A, segC4B, segC4C, segC4D, segC4E].filter (segmentInUseKeeps stC4 replicaF) =
      [segC4C, segC4D, segC4E] :=
  (filterSegmentInUse_characterization stC4 replicaF
    [segC4A, segC4B, segC4C, segC4D, segC4E] [segC4C, segC4D, segC4E] (by decide)).symm

/-! ### C5: the staleness filters can fault -/

/-- C5 is violated by the code: when a shard leader resolves for a channel but
no leader view is registered for that (leader, channel) pair, both
`filterExistedOnLeader` (`view.Segments`) and `filterSegmentInUse`
(`view.TargetVersion`) dereference a nil `view`; the fault propagates out of
`Check` (modelled as `none`), instead of `Check` returning a task list. -/
theorem check_faults_on_missing_leader_view :
    filterExistedOnLeader stC5 replicaC5 [segC5] = none ∧
      filterSegmentInUse stC5 replicaC5 [segC5] = none ∧
      Check stC5 = none := by
  refine ⟨rfl, rfl, ?_⟩
  decide

/-! ### C7: tie-break among equal versions in findRepeatedSealedSegments -/

/-- C7 as stated is false: with two placements of segment 7 carrying equal
versions, walked first-node-first, the **first**-encountered placement
(`segC7A`) is the one emitted as releasable and the later one (`segC7B`) is
retained — because the source compares `maxVer.Version <= s.Version`, so an
equal incoming version displaces the tracked placement. -/
theorem findRepeated_equal_version_counterexample :
    segC7A.getID = segC7B.getID ∧ segC7A.version = segC7B.version ∧
      getSealedSegmentsDist stC7 replicaC7 = [segC7A, segC7B] ∧
      findRepeatedSealedSegments stC7 1 = [segC7A] ∧
      segC7B ∉ findRepeatedSealedSegments stC7 1 := by
  decide

/-- C7 amended: when two placements of one segmentID carry equal versions, the
first-encountered placement is emitted as releasable and the later-encountered
one is retained as the survivor (last occurrence wins among equal versions). -/
theorem findRepeated_equal_version_last_wins (st : CheckerState) (replicaID : Int)
    (replica : Replica) (a b : Segment)
    (hrep : getReplica st replicaID = some replica)
    (hdist : getSealedSegmentsDist st replica = [a, b])
    (ha : isL0InTarget st a = false) (hb : isL0InTarget st b = false)
    (hid : a.getID = b.getID) (hver : a.version = b.version) :
    findRepeatedSealedSegments st replicaID = [a] := by
  have hbeq : (a.getID == b.getID) = true := by simp [hid]
  have hbeq2 : (b.getID == a.getID) = true := by simp [hid]
  simp [findRepeatedSealedSegments, hrep, hdist, repeatedAux, ha, hb,
    List.lookup, hbeq, hbeq2, hver]

/-- Witness for the amended C7 at the concrete state of the counterexample. -/
theorem findRepeated_equal_version_last_wins_witness :
    findRepeatedSealedSegments stC7 1 = [segC7A] :=
  findRepeated_equal_version_last_wins stC7 1 replicaC7 segC7A segC7B
    (by decide) (by decide) rfl rfl rfl rfl

/-- Looking a key up in the map folded by `buildDistMap` (over any initial
map) yields the node of the last placement of that key, i.e. the first match
in the reversed list. -/
theorem foldl_distMap_lookup (k : Int) :
    ∀ (l : List Segment) (init : List (Int × Int)),
      (List.foldl (fun m s => (s.getID, s.node) :: m) init l).lookup k =
        match l.reverse.find? (fun s => s.getID == k) with
        | some s => some s.node
        | none => init.lookup k := by
  intro l
  induction l with
  | nil => intro init; simp
  | cons s rest ih =>
    intro init
    simp only [List.foldl_cons]
    rw [ih]
    simp only [List.reverse_cons, List.find?_append]
    cases hfind : rest.reverse.find? (fun t => t.getID == k) with
    | some t => simp [hfind]
    | none =>
      simp only [hfind]
      by_cases hpk : s.getID = k
      · simp [List.find?, List.lookup, hpk]
      · have h1 : (k == s.getID) = false := beq_eq_false_iff_ne.mpr (Ne.symm hpk)
        have h2 : (s.getID == k) = false := beq_eq_false_iff_ne.mpr hpk
        simp [List.find?, List.lookup, h1, h2]

/-- In a `Pairwise R` list, the element `find?` returns is `R`-related to
every other match. -/
theorem find?_max_of_pairwise {α : Type} {R : α → α → Prop} {p : α → Bool} :
    ∀ {l : List α}, l.Pairwise R → ∀ {s : α}, l.find? p = some s →
      p s = true ∧ s ∈ l ∧ ∀ t ∈ l, p t = true → t = s ∨ R s t := by
  intro l
  induction l with
  | nil => intro _ s h; cases h
  | cons a rest ih =>
    intro hp s h
    rcases List.pairwise_cons.mp hp with ⟨ha, hrest⟩
    cases hpa : p a with
    | true =>
      rw [List.find?_cons_of_pos _ hpa] at h
      cases h
      refine ⟨hpa, List.mem_cons_self a rest, ?_⟩
      intro t ht hpt
      rcases List.mem_cons.mp ht with rfl | htr
      · exact Or.inl rfl
      · exact Or.inr (ha t htr)
    | false =>
      rw [List.find?_cons_of_neg _ (by simp [hpa])] at h
      obtain ⟨hps, hmem, hmax⟩ := ih hrest h
      refine ⟨hps, List.mem_cons_of_mem _ hmem, ?_⟩
      intro t ht hpt
      rcases List.mem_cons.mp ht with rfl | htr
      · rw [hpa] at hpt; cases hpt
      · exact hmax t htr hpt

/-! ### C8: the distMap fold and the version tie-break -/

/-- C8 as stated is false in its tie-break half: `sort.Slice` is not a stable
sort, so both orders of two equal-version placements are admissible sorted
outputs of the same distribution, and they fold to different nodes for the
tied segmentID — the winner among equal versions is not determined, let alone
"the later entry of a stable ascending sort". -/
theorem sealedDistMap_tie_counterexample :
    segC8A.getID = segC8B.getID ∧ segC8A.version = segC8B.version ∧
      List.Perm [segC8A, segC8B] [segC8A, segC8B] ∧ sortedByVersionAsc [segC8A, segC8B] ∧
      List.Perm [segC8B, segC8A] [segC8A, segC8B] ∧ sortedByVersionAsc [segC8B, segC8A] ∧
      (buildDistMap [segC8A, segC8B]).lookup 8 = some segC8B.node ∧
      (buildDistMap [segC8B, segC8A]).lookup 8 = some segC8A.node ∧
      segC8A.node ≠ segC8B.node := by
  decide

/-- C8 amended: for every sorted permutation `d` of the distribution `dist`
(every admissible outcome of the unstable `sort.Slice`), the folded map sends
each present segmentID to the node of one of its highest-version placements
(and no absent segmentID is mapped); among equal highest versions the winner
is unspecified. -/
theorem sealedDistMap_maps_to_max_version (dist d : List Segment)
    (hperm : List.Perm d dist) (hsort : sortedByVersionAsc d) (k : Int) :
    ((buildDistMap d).lookup k = none → ∀ s ∈ dist, s.getID ≠ k) ∧
    (∀ n : Int, (buildDistMap d).lookup k = some n →
      ∃ s, s ∈ dist ∧ s.getID = k ∧ s.node = n ∧
        ∀ t ∈ dist, t.getID = k → t.version ≤ s.version) := by
  have hlk := foldl_distMap_lookup k d []
  constructor
  · intro hnone s hs hk
    rw [buildDistMap] at hnone
    rw [hlk] at hnone
    cases hfind : d.reverse.find? (fun t => t.getID == k) with
    | some t => rw [hfind] at hnone; cases hnone
    | none =>
      have hno := List.find?_eq_none.mp hfind s
        (List.mem_reverse.mpr (hperm.mem_iff.mpr hs))
      simp [hk] at hno
  · intro n hsome
    rw [buildDistMap] at hsome
    rw [hlk] at hsome
    cases hfind : d.reverse.find? (fun t => t.getID == k) with
    | none => rw [hfind] at hsome; cases hsome
    | some t =>
      rw [hfind] at hsome
      have hn : t.node = n := by injection hsome
      have hrev : d.reverse.Pairwise (fun x y => y.version ≤ x.version) :=
        List.pairwise_reverse.mpr hsort
      obtain ⟨hpt, hmem, hmax⟩ := find?_max_of_pairwise hrev hfind
      refine ⟨t, hperm.mem_iff.mp (List.mem_reverse.mp hmem), by simpa using hpt, hn, ?_⟩
      intro u hu huk
      rcases hmax u (List.mem_reverse.mpr (hperm.mem_iff.mpr hu)) (by simp [huk]) with
        rfl | hle
      · exact le_refl _
      · exact hle

/-- Witness for the amended C8: distribution `[segC8D, segC8C]` (versions 2
then 1 of segment 9) with the sorted permutation `[segC8C, segC8D]` maps
segment 9 to node 2, the node of the version-2 placement. -/
theorem sealedDistMap_maps_to_max_version_witness :
    (buildDistMap [segC8C, segC8D]).lookup 9 = some 2 ∧
      ∃ s, s ∈ [segC8D, segC8C] ∧ s.getID = 9 ∧ s.node = 2 ∧
        ∀ t ∈ [segC8D, segC8C], t.getID = 9 → t.version ≤ s.version :=
  ⟨by decide,
    (sealedDistMap_maps_to_max_version [segC8D, segC8C] [segC8C, segC8D]
      (by decide) (by decide) 9).2 2 (by decide)⟩

/-! ### C3: growing-segment release characterization -/

/-- C3: `getGrowingSegmentDiff` marks a growing segment releasable exactly when
the replica exists, some channel the replica leads has a leader view, that
leader has adopted the collection's current target version, the segment is
among the leader's growing segments, its id is absent from both targets'
growing sets, its channel is in the current target's channel map, and its
start-position timestamp is strictly below that channel's seek position. -/
theorem getGrowingSegmentDiff_characterization (st : CheckerState)
    (collectionID replicaID : Int) (s : Segment) :
    s ∈ (getGrowingSegmentDiff st collectionID replicaID).2 ↔
      ∃ replica, getReplica st replicaID = some replica ∧
      ∃ p, p ∈ st.shardLeaders replica ∧
      ∃ view, st.leaderView p.2 p.1 = some view ∧
        view.targetVersion = st.targetVersion collectionID ∧
        s ∈ view.growingSegments ∧
        ¬ s.getID ∈ st.growingCurrent collectionID ∧
        ¬ s.getID ∈ st.growingNext collectionID ∧
        ∃ channel,
          (st.dmChannelsCurrent collectionID).lookup s.getInsertChannel = some channel ∧
          s.getStartPosTs < channel.seekPosTs := by
  cases hrep : getReplica st replicaID with
  | none => simp [getGrowingSegmentDiff, hrep]
  | some replica =>
    simp only [getGrowingSegmentDiff, hrep, List.mem_flatMap]
    constructor
    · rintro ⟨p, hp, hmem⟩
      refine ⟨replica, rfl, p, hp, ?_⟩
      cases hv : st.leaderView p.2 p.1 with
      | none => simp only [hv] at hmem; cases hmem
      | some view =>
        simp only [hv] at hmem
        by_cases htv : view.targetVersion = st.targetVersion collectionID
        · rw [if_neg (by simp [htv])] at hmem
          rw [List.mem_filter] at hmem
          obtain ⟨hsg, hcond⟩ := hmem
          refine ⟨view, rfl, htv, hsg, ?_⟩
          cases hch : (st.dmChannelsCurrent collectionID).lookup s.getInsertChannel with
          | none => rw [hch] at hcond; simp at hcond
          | some channel =>
            rw [hch] at hcond
            simp only [Bool.and_eq_true, Bool.not_eq_true', List.contains,
              List.elem_eq_mem, decide_eq_false_iff_not, decide_eq_true_eq] at hcond
            exact ⟨hcond.1.1, hcond.1.2, channel, rfl, hcond.2⟩
        · rw [if_pos (by simp [htv])] at hmem; cases hmem
    · rintro ⟨replica2, hrep2, p, hp, view, hv, htv, hsg, hc1, hc2, channel, hch, hts⟩
      injection hrep2 with he
      subst he
      refine ⟨p, hp, ?_⟩
      simp only [hv]
      rw [if_neg (by simp [htv]), List.mem_filter]
      refine ⟨hsg, ?_⟩
      rw [hch]
      simp only [Bool.and_eq_true, Bool.not_eq_true', List.contains,
        List.elem_eq_mem, decide_eq_false_iff_not, decide_eq_true_eq]
      exact ⟨⟨hc1, hc2⟩, hts⟩

/-- Witness for C3: in `stC3` the segment with start position 100 (behind the
151-exclusive watermark 150) is released, while the segment with start
position 200 is not. -/
theorem getGrowingSegmentDiff_characterization_witness :
    segC3G1 ∈ (getGrowingSegmentDiff stC3 1 1).2 ∧
      ¬ segC3G2 ∈ (getGrowingSegmentDiff stC3 1 1).2 :=
  ⟨(getGrowingSegmentDiff_characterization stC3 1 1 segC3G1).mpr
    ⟨replicaC3, by decide, ("ch", 7), by decide,
      { id := 7, targetVersion := 5, growingSegments := [segC3G1, segC3G2], segments := [] },
      by decide, by decide, by decide, by decide, by decide,
      { seekPosTs := 150 }, by decide, by decide⟩,
   by decide⟩

/-! ### C9: collection-released cleanup and uniform priority -/

/-- C9: whenever `Check` returns a task list, every returned task carries
normal priority, and for every distributed segment of a collection outside the
live set (whose reduce-task construction succeeds) the list contains a reduce
task for it with reason "collection released" — emitted without either
staleness filter, as the statement holds for arbitrary leader state. -/
theorem Check_released_cleanup (st : CheckerState) (tasks : List SegTask)
    (hactive : st.isActive = true) (h : Check st = some tasks) :
    (∀ t ∈ tasks, t.priority = TaskPriority.Normal) ∧
    (∀ s ∈ st.allSegments, ¬ s.getCollectionID ∈ st.collections →
      st.segmentTaskFails s.getCollectionID (reduceAction s DataScope.Historical) = false →
      ({ collectionID := s.getCollectionID, replicaID := NilReplica.id,
         actions := [reduceAction s DataScope.Historical],
         reason := "collection released",
         priority := TaskPriority.Normal } : SegTask) ∈ tasks) := by
  simp only [Check, hactive, Bool.not_true, Bool.false_eq_true, if_false] at h
  cases hcc : checkCollections st st.collections with
  | none => simp only [hcc] at h; cases h
  | some results =>
    simp only [hcc, Option.some.injEq] at h
    subst h
    constructor
    · intro t ht
      simp only [setPriority, List.mem_map] at ht
      obtain ⟨t0, ht0, he⟩ := ht
      rw [← he]
    · intro s hs hnotin hfail
      apply List.mem_map.mpr
      refine ⟨{ collectionID := s.getCollectionID, replicaID := NilReplica.id,
                actions := [reduceAction s DataScope.Historical],
                reason := "collection released",
                priority := TaskPriority.Low }, ?_, rfl⟩
      apply List.mem_append_right
      apply List.mem_map.mpr
      refine ⟨{ collectionID := s.getCollectionID, replicaID := NilReplica.id,
                actions := [reduceAction s DataScope.Historical],
                reason := "", priority := TaskPriority.Low }, ?_, rfl⟩
      simp only [createSegmentReduceTasks, List.mem_filterMap]
      refine ⟨s, ?_, ?_⟩
      · simp only [FilterReleased, List.mem_filter]
        exact ⟨hs, by simp [List.contains, List.elem_eq_mem, hnotin]⟩
      · simp [hfail]

/-- Witness for C9: on `stC9`, `Check` returns exactly the cleanup task for
the dead collection's segment, with the released reason and normal priority. -/
theorem Check_released_cleanup_witness :
    Check stC9 = some [taskC9] ∧
      ({ collectionID := segC9Dead.getCollectionID, replicaID := NilReplica.id,
         actions := [reduceAction segC9Dead DataScope.Historical],
         reason := "collection released",
         priority := TaskPriority.Normal } : SegTask) ∈ [taskC9] :=
  ⟨by decide,
    (Check_released_cleanup stC9 [taskC9] rfl (by decide)).2 segC9Dead
      (by decide) (by decide) rfl⟩

/-! ### C1: one surviving placement per segmentID -/

/-- A successful association-list lookup exhibits its key-value pair as a
member of the list. -/
theorem mem_of_lookup_eq_some {α β : Type} [BEq α] [LawfulBEq α]
    {l : List (α × β)} {k : α} {b : β} (h : l.lookup k = some b) : (k, b) ∈ l := by
  obtain ⟨l1, l2, hl, -⟩ := List.lookup_eq_some_iff.mp h
  subst hl
  exact List.mem_append_right _ (List.mem_cons_self _ _)

/-- The walk of `findRepeatedSealedSegments` maintains `dupInv` for every
segmentID `k` and every well-formed tracking map. -/
theorem repeatedAux_dupInv (st : CheckerState) (k : Int) :
    ∀ (dist : List Segment) (versions : List (Int × Segment)),
      (∀ p ∈ versions, (p : Int × Segment).2.getID = p.1) →
      dupInv (dist.filter (fun t => !(isL0InTarget st t) && t.getID == k))
        (versions.lookup k) ((repeatedAux st dist versions).2.lookup k)
        ((repeatedAux st dist versions).1.filter (fun t => t.getID == k)) := by
  intro dist
  induction dist with
  | nil =>
    intro versions hwf
    simp only [repeatedAux, List.filter_nil]
    cases hv : versions.lookup k with
    | none => exact ⟨rfl, rfl⟩
    | some m =>
      simp only [dupInv]
      refine ⟨List.Perm.refl _, ?_⟩
      intro x hx
      rcases List.mem_cons.mp hx with rfl | hx2
      · exact le_refl _
      · cases hx2
  | cons s rest ih =>
    intro versions hwf
    by_cases hL0 : isL0InTarget st s = true
    · rw [List.filter_cons_of_neg (by simp [hL0])]
      have heq : repeatedAux st (s :: rest) versions = repeatedAux st rest versions := by
        simp only [repeatedAux]
        rw [if_pos hL0]
      rw [heq]
      exact ih versions hwf
    · have hL0f : isL0InTarget st s = false := by
        revert hL0; cases isL0InTarget st s <;> simp
      have hwf2 : ∀ p ∈ ((s.getID, s) :: versions), (p : Int × Segment).2.getID = p.1 := by
        intro p hp
        rcases List.mem_cons.mp hp with rfl | hp2
        · rfl
        · exact hwf p hp2
      cases hv : versions.lookup s.getID with
      | none =>
        have heq : repeatedAux st (s :: rest) versions =
            repeatedAux st rest ((s.getID, s) :: versions) := by
          simp only [repeatedAux]
          rw [if_neg hL0, hv]
        rw [heq]
        have H := ih ((s.getID, s) :: versions) hwf2
        by_cases hk : s.getID = k
        · subst hk
          rw [List.filter_cons_of_pos (by simp [hL0f])]
          rw [List.lookup_cons_self] at H
          rw [hv]
          cases hafter :
              (repeatedAux st rest ((s.getID, s) :: versions)).2.lookup s.getID with
          | none => rw [hafter] at H; exact absurd H (by simp [dupInv])
          | some m =>
            rw [hafter] at H
            simp only [dupInv] at H ⊢
            exact H
        · have hkb : (k == s.getID) = false := beq_eq_false_iff_ne.mpr (Ne.symm hk)
          rw [List.filter_cons_of_neg (by simp [hL0f, beq_eq_false_iff_ne.mpr hk])]
          rw [List.lookup_cons, hkb] at H
          exact H
      | some maxVer =>
        have hmid : maxVer.getID = s.getID := hwf _ (mem_of_lookup_eq_some hv)
        by_cases hle : maxVer.version ≤ s.version
        · have heq : repeatedAux st (s :: rest) versions =
              (maxVer :: (repeatedAux st rest ((s.getID, s) :: versions)).1,
                (repeatedAux st rest ((s.getID, s) :: versions)).2) := by
            simp only [repeatedAux]
            rw [if_neg hL0, hv]
            dsimp only
            rw [if_pos hle]
          rw [heq]
          dsimp only
          have H := ih ((s.getID, s) :: versions) hwf2
          by_cases hk : s.getID = k
          · subst hk
            rw [List.lookup_cons_self] at H
            rw [List.filter_cons_of_pos (by simp [hL0f])]
            rw [hv]
            cases hafter :
                (repeatedAux st rest ((s.getID, s) :: versions)).2.lookup s.getID with
            | none => rw [hafter] at H; exact absurd H (by simp [dupInv])
            | some m =>
              rw [hafter] at H
              simp only [dupInv] at H ⊢
              obtain ⟨hperm, hbound⟩ := H
              constructor
              · rw [List.filter_cons_of_pos (by simp [hmid])]
                exact List.Perm.trans (List.Perm.swap _ _ _) (hperm.cons _)
              · intro x hx
                rcases List.mem_cons.mp hx with rfl | hx2
                · exact le_trans hle (hbound s (List.mem_cons_self _ _))
                · exact hbound x hx2
          · have hkb : (k == s.getID) = false := beq_eq_false_iff_ne.mpr (Ne.symm hk)
            rw [List.filter_cons_of_neg (by simp [hL0f, beq_eq_false_iff_ne.mpr hk])]
            rw [List.filter_cons_of_neg (by simp [hmid, beq_eq_false_iff_ne.mpr hk])]
            rw [List.lookup_cons, hkb] at H
            exact H
        · have heq : repeatedAux st (s :: rest) versions =
              (s :: (repeatedAux st rest versions).1,
                (repeatedAux st rest versions).2) := by
            simp only [repeatedAux]
            rw [if_neg hL0, hv]
            dsimp only
            rw [if_neg hle]
          rw [heq]
          dsimp only
          have H := ih versions hwf
          by_cases hk : s.getID = k
          · subst hk
            rw [List.filter_cons_of_pos (by simp [hL0f])]
            rw [List.filter_cons_of_pos (by simp)]
            rw [hv] at H ⊢
            cases hafter : (repeatedAux st rest versions).2.lookup s.getID with
            | none => rw [hafter] at H; exact absurd H (by simp [dupInv])
            | some m =>
              rw [hafter] at H
              simp only [dupInv] at H ⊢
              obtain ⟨hperm, hbound⟩ := H
              constructor
              · exact List.Perm.trans (List.Perm.swap _ _ _)
                  (List.Perm.trans (hperm.cons _) (List.Perm.swap _ _ _))
              · intro x hx
                rcases List.mem_cons.mp hx with rfl | hx2
                · exact hbound x (List.mem_cons_self _ _)
                · rcases List.mem_cons.mp hx2 with rfl | hx3
                  · exact le_trans (le_of_lt (lt_of_not_le hle))
                      (hbound maxVer (List.mem_cons_self _ _))
                  · exact hbound x (List.mem_cons_of_mem _ hx3)
          · have hkb : (k == s.getID) = false := beq_eq_false_iff_ne.mpr (Ne.symm hk)
            rw [List.filter_cons_of_neg (by simp [hL0f, beq_eq_false_iff_ne.mpr hk])]
            rw [List.filter_cons_of_neg (by simp [beq_eq_false_iff_ne.mpr hk])]
            exact H

/-- C1: for every state, replica and segmentID `k`, either no non-L0-in-target
placement of `k` exists (and none is released), or there is exactly one
surviving placement `m`: the released placements of `k` plus `m` are a
permutation of all the placements of `k`, and `m` carries the highest version
observed.  Quantifying over every state covers every ordering of the input
distribution. -/
theorem findRepeatedSealedSegments_one_survivor (st : CheckerState) (replicaID : Int)
    (replica : Replica) (hrep : getReplica st replicaID = some replica) (k : Int) :
    ((getSealedSegmentsDist st replica).filter
        (fun t => !(isL0InTarget st t) && t.getID == k) = [] ∧
      (findRepeatedSealedSegments st replicaID).filter (fun t => t.getID == k) = []) ∨
    (∃ m : Segment,
      (m :: (findRepeatedSealedSegments st replicaID).filter
          (fun t => t.getID == k)).Perm
        ((getSealedSegmentsDist st replica).filter
          (fun t => !(isL0InTarget st t) && t.getID == k)) ∧
      ∀ s ∈ (getSealedSegmentsDist st replica).filter
          (fun t => !(isL0InTarget st t) && t.getID == k), s.version ≤ m.version) := by
  have H := repeatedAux_dupInv st k (getSealedSegmentsDist st replica) []
    (by intro p hp; cases hp)
  have hfr : findRepeatedSealedSegments st replicaID =
      (repeatedAux st (getSealedSegmentsDist st replica) []).1 := by
    simp only [findRepeatedSealedSegments, hrep]
  cases hafter : (repeatedAux st (getSealedSegmentsDist st replica) []).2.lookup k with
  | none =>
    rw [hafter] at H
    left
    rw [hfr]
    simpa [dupInv, List.lookup] using H
  | some m =>
    rw [hafter] at H
    right
    rw [hfr]
    refine ⟨m, ?_⟩
    simpa [dupInv, List.lookup] using H

/-- Witness for C1: three placements of segment 10 with versions 1 < 2 < 3 on
nodes 1, 2, 3; the version-1 and version-2 placements are released and the
version-3 placement survives. -/
theorem findRepeatedSealedSegments_one_survivor_witness :
    findRepeatedSealedSegments stC1 1 = [segC1V1, segC1V2] ∧
      (((getSealedSegmentsDist stC1 replicaC1).filter
          (fun t => !(isL0InTarget stC1 t) && t.getID == (10 : Int)) = [] ∧
        (findRepeatedSealedSegments stC1 1).filter (fun t => t.getID == (10 : Int)) = []) ∨
      (∃ m : Segment,
        (m :: (findRepeatedSealedSegments stC1 1).filter
            (fun t => t.getID == (10 : Int))).Perm
          ((getSealedSegmentsDist stC1 replicaC1).filter
            (fun t => !(isL0InTarget stC1 t) && t.getID == (10 : Int))) ∧
        ∀ s ∈ (getSealedSegmentsDist stC1 replicaC1).filter
            (fun t => !(isL0InTarget stC1 t) && t.getID == (10 : Int)),
          s.version ≤ m.version)) :=
  ⟨by decide,
    findRepeatedSealedSegments_one_survivor stC1 1 replicaC1 (by decide) 10⟩
